import Mathlib

/-!
Verification development for the agentic-commerce repository.

Part 1 models the merchant commerce session engine (catalogue, cart,
checkout session machine, payment reconciliation, order ledger).  The
server implementing it (rest/python/server, rest/nodejs, payment.py)
is not present under src/, so these definitions are modelled from the
specification (spec.md sections 3 to 5), faithful to its words.

Part 2 embeds the Sarvam translation/TTS utilities that are present in
the source (src/sarvam/modules/translate.js and its TypeScript port).
JavaScript strings are modelled as lists of Unicode scalar characters.
-/

namespace Commerce

/-- Modelled from the spec: Product record of the catalogue store
(spec section 3) — stable id key maps to title, integer minor-unit
price, non-negative inventory, optional category.  The serving code
(rest/python/server, rest/nodejs) is not under src/. -/
structure Product where
  title : String
  price : Nat
  inventoryQuantity : Nat
  category : Option String
deriving DecidableEq

/-- Modelled from the spec: one frozen line item of a checkout session
snapshot — productId, quantity, unit price frozen at creation. -/
structure LineItem where
  productId : String
  quantity : Nat
  unitPrice : Nat
deriving DecidableEq

/-- Modelled from the spec: checkout session status state machine
(pending, paid, failed, expired). -/
inductive SessionStatus
  | pending
  | paid
  | failed
  | expired
deriving DecidableEq

/-- Modelled from the spec: CheckoutSession record — generated id,
buyer, frozen line-item snapshot, computed total, UPI payment link,
status and time bounds (spec section 3). -/
structure CheckoutSession where
  id : String
  buyerId : String
  lineItems : List LineItem
  totalMinorUnits : Nat
  paymentLink : String
  status : SessionStatus
  createdAt : Nat
  expiresAt : Nat
deriving DecidableEq

/-- Modelled from the spec: Order status (completed or failed). -/
inductive OrderStatus
  | completed
  | failed
deriving DecidableEq

/-- Modelled from the spec: Order record, 1:1 with a checkout session,
created on the session's terminal transition. -/
structure Order where
  id : String
  checkoutSessionId : String
  status : OrderStatus
  utr : String
  completedAt : Nat
deriving DecidableEq

/-- Modelled from the spec: the value stored in the idempotency-key
ledger — the previously computed result (order id and status) for a
(sessionId, idempotencyKey) pair. -/
structure StoredResult where
  orderId : String
  status : SessionStatus
deriving DecidableEq

/-- Modelled from the spec: error taxonomy of section 7, restricted to
the codes the session engine itself raises. -/
inductive EngineError
  | productNotFound
  | insufficientInventory
  | emptyCart
  | sessionNotFound
  | sessionExpired
  | sessionAlreadyFinalized
  | invalidSignature
deriving DecidableEq

/-- Association-list lookup keyed on the first component. -/
def lookupA {α β : Type} [DecidableEq α] (k : α) : List (α × β) → Option β
  | [] => none
  | (k', v) :: rest => if k' = k then some v else lookupA k rest

/-- Association-list insert-or-replace keyed on the first component. -/
def insertA {α β : Type} [DecidableEq α] (k : α) (v : β) : List (α × β) → List (α × β)
  | [] => [(k, v)]
  | (k', v') :: rest => if k' = k then (k, v) :: rest else (k', v') :: insertA k v rest

/-- Association-list removal of every entry with the given key. -/
def removeA {α β : Type} [DecidableEq α] (k : α) : List (α × β) → List (α × β)
  | [] => []
  | (k', v') :: rest => if k' = k then removeA k rest else (k', v') :: removeA k rest

/-- Number of entries of an association list carrying the given key. -/
def countKey {α β : Type} [DecidableEq α] (k : α) : List (α × β) → Nat
  | [] => 0
  | (k', _) :: rest => (if k' = k then 1 else 0) + countKey k rest

/-- Modelled from the spec: persisted state layout of section 6 —
products table, per-buyer cart rows keyed by (buyerId, productId),
checkout-session table, idempotency-key ledger keyed by
(sessionId, idempotencyKey), and the append-only order table keyed by
checkout session id. -/
structure EngineState where
  products : List (String × Product)
  carts : List ((String × String) × Nat)
  sessions : List (String × CheckoutSession)
  idemLedger : List ((String × String) × StoredResult)
  orders : List (String × Order)
deriving DecidableEq

/-- Modelled from the spec: merchant configuration — UPI VPA, display
name, and the configured signing secret with its signature scheme
(the scheme itself is abstracted as a function of secret and payload). -/
structure MerchantConfig where
  vpa : String
  name : String
  secret : String
  sign : String → String → String

/-- The buyer's current cart as (productId, quantity) rows. -/
def cartOf (buyer : String) (carts : List ((String × String) × Nat)) : List (String × Nat) :=
  carts.filterMap (fun kv => if kv.1.1 = buyer then some (kv.1.2, kv.2) else none)

/-- Sum of line-item subtotals (quantity times frozen unit price). -/
def sumSubtotals (items : List LineItem) : Nat :=
  (items.map (fun li => li.quantity * li.unitPrice)).sum

/-- Minor-unit amount rendered as rupees with two decimal places, as
in the generated UPI deep link (spec section 4.2 and scenario A). -/
def formatAmount (minor : Nat) : String :=
  toString (minor / 100) ++ "." ++
    (if minor % 100 < 10 then "0" ++ toString (minor % 100) else toString (minor % 100))

/-- Modelled from the spec: the UPI deep link of the checkout session
machine, of the form
upi://pay?pa=VPA&pn=NAME&am=AMOUNT&tr=SESSIONID&cu=INR. -/
def upiLink (vpa name : String) (totalMinorUnits : Nat) (sessionId : String) : String :=
  "upi://pay?pa=" ++ vpa ++ "&pn=" ++ name ++ "&am=" ++ formatAmount totalMinorUnits ++
    "&tr=" ++ sessionId ++ "&cu=INR"

/-- Modelled from the spec: the session's frozen signature payload,
id + total + buyer (spec section 4.3). -/
def signaturePayload (sess : CheckoutSession) : String :=
  sess.id ++ toString sess.totalMinorUnits ++ sess.buyerId

/-- Modelled from the spec: re-validation and snapshotting of the cart
at checkout creation — each row must name a known product with enough
stock; prices are frozen at this instant; all-or-nothing. -/
def buildLineItems : List (String × Nat) → List (String × Product) →
    Except EngineError (List LineItem)
  | [], _ => .ok []
  | (pid, qty) :: rest, products =>
    match lookupA pid products with
    | none => .error .productNotFound
    | some p =>
      if p.inventoryQuantity < qty then .error .insufficientInventory
      else
        match buildLineItems rest products with
        | .error e => .error e
        | .ok items => .ok ({ productId := pid, quantity := qty, unitPrice := p.price } :: items)

/-- Modelled from the spec: atomic all-or-nothing inventory decrement
for each line item by its snapshotted quantity (spec sections 4.3, 5). -/
def decrementAll : List LineItem → List (String × Product) → Option (List (String × Product))
  | [], products => some products
  | li :: rest, products =>
    match lookupA li.productId products with
    | none => none
    | some p =>
      if p.inventoryQuantity < li.quantity then none
      else decrementAll rest
        (insertA li.productId { p with inventoryQuantity := p.inventoryQuantity - li.quantity } products)

/-- Modelled from the spec: clearing the buyer's cart of exactly the
items present in the session snapshot; rows of other buyers and rows
for products outside the snapshot are left untouched. -/
def clearSnapshot (buyer : String) : List LineItem → List ((String × String) × Nat) →
    List ((String × String) × Nat)
  | [], carts => carts
  | li :: rest, carts => clearSnapshot buyer rest (removeA (buyer, li.productId) carts)

/-- Result payload carried by a successful engine operation. -/
inductive OpResult
  | unit
  | checkoutCreated (sessionId paymentLink : String) (totalMinorUnits expiresAt : Nat)
  | paymentConfirmed (orderId : String) (status : SessionStatus)
deriving DecidableEq

/-- Outcome of an engine operation: a result or an error code. -/
inductive OpOutcome
  | ok (r : OpResult)
  | err (e : EngineError)
deriving DecidableEq

/-- Modelled from the spec: addItem of the cart manager (section 4.1) —
ProductNotFound for an unknown product, InsufficientInventory when the
requested quantity exceeds live stock, otherwise the quantity is added
to the buyer's row for that product. -/
def addItem (buyer pid : String) (qty : Nat) (s : EngineState) : EngineState × OpOutcome :=
  match lookupA pid s.products with
  | none => (s, .err .productNotFound)
  | some p =>
    if p.inventoryQuantity < qty then (s, .err .insufficientInventory)
    else
      let newQty :=
        match lookupA (buyer, pid) s.carts with
        | some q => q + qty
        | none => qty
      ({ s with carts := insertA (buyer, pid) newQty s.carts }, .ok .unit)

/-- Modelled from the spec: updateItem of the cart manager (section
4.1) — quantity zero is equivalent to removeItem (a no-op when the row
is absent); otherwise the row is set after the same validations as
addItem. -/
def updateItem (buyer pid : String) (qty : Nat) (s : EngineState) : EngineState × OpOutcome :=
  if qty = 0 then ({ s with carts := removeA (buyer, pid) s.carts }, .ok .unit)
  else
    match lookupA pid s.products with
    | none => (s, .err .productNotFound)
    | some p =>
      if p.inventoryQuantity < qty then (s, .err .insufficientInventory)
      else ({ s with carts := insertA (buyer, pid) qty s.carts }, .ok .unit)

/-- Modelled from the spec: removeItem of the cart manager (section
4.1); removing an absent item is a no-op, not an error. -/
def removeItem (buyer pid : String) (s : EngineState) : EngineState × OpOutcome :=
  ({ s with carts := removeA (buyer, pid) s.carts }, .ok .unit)

/-- Modelled from the spec: catalogue import/update of a product row;
stands for any later change of the underlying catalogue entry (such as
a price change) that a frozen session must be independent of. -/
def importProduct (pid : String) (p : Product) (s : EngineState) : EngineState × OpOutcome :=
  ({ s with products := insertA pid p s.products }, .ok .unit)

/-- Modelled from the spec: createCheckoutSession of the checkout
session machine (section 4.2) — EmptyCart on an empty cart; re-validates
price and stock against the live catalogue (all-or-nothing); on success
snapshots line items, computes the total, generates the UPI deep link,
persists the session as pending with a 15-minute expiry, and does not
mutate the cart. -/
def createCheckoutSession (cfg : MerchantConfig) (buyer sid : String) (now : Nat)
    (s : EngineState) : EngineState × OpOutcome :=
  if cartOf buyer s.carts = [] then (s, .err .emptyCart)
  else
    match buildLineItems (cartOf buyer s.carts) s.products with
    | .error e => (s, .err e)
    | .ok items =>
      let sess : CheckoutSession :=
        { id := sid
          buyerId := buyer
          lineItems := items
          totalMinorUnits := sumSubtotals items
          paymentLink := upiLink cfg.vpa cfg.name (sumSubtotals items) sid
          status := .pending
          createdAt := now
          expiresAt := now + 15 * 60 }
      ({ s with sessions := insertA sid sess s.sessions },
        .ok (.checkoutCreated sid sess.paymentLink sess.totalMinorUnits sess.expiresAt))

/-- Modelled from the spec: confirmPayment of payment reconciliation
(section 4.3) — SessionNotFound for an unknown id; an already-seen
(sessionId, idempotencyKey) pair returns the previously computed result
with no side effect; SessionExpired past expiresAt while still pending;
SessionAlreadyFinalized when the session is terminal and the key
differs; InvalidSignature (no state change) when the signature does not
verify against the frozen payload under the merchant secret; otherwise
the atomic unit: decrement inventory by the snapshotted quantities
(all-or-nothing, leaving the session pending on insufficient stock),
transition to paid, append the Order, record the result in the
idempotency ledger and clear the snapshotted items from the cart. -/
def confirmPayment (cfg : MerchantConfig) (sid utr key sig : String) (now : Nat)
    (s : EngineState) : EngineState × OpOutcome :=
  match lookupA sid s.sessions with
  | none => (s, .err .sessionNotFound)
  | some sess =>
    match lookupA (sid, key) s.idemLedger with
    | some prior => (s, .ok (.paymentConfirmed prior.orderId prior.status))
    | none =>
      if sess.status ≠ .pending then
        if sess.status = .expired then (s, .err .sessionExpired)
        else (s, .err .sessionAlreadyFinalized)
      else if sess.expiresAt < now then (s, .err .sessionExpired)
      else if sig ≠ cfg.sign cfg.secret (signaturePayload sess) then
        (s, .err .invalidSignature)
      else
        match decrementAll sess.lineItems s.products with
        | none => (s, .err .insufficientInventory)
        | some products' =>
          let orderId := "order-" ++ sid
          let order : Order :=
            { id := orderId
              checkoutSessionId := sid
              status := .completed
              utr := utr
              completedAt := now }
          ({ s with
              products := products'
              sessions := insertA sid { sess with status := .paid } s.sessions
              orders := (sid, order) :: s.orders
              idemLedger := insertA (sid, key) { orderId := orderId, status := .paid } s.idemLedger
              carts := clearSnapshot sess.buyerId sess.lineItems s.carts },
            .ok (.paymentConfirmed orderId .paid))

/-- The operations a caller can submit to the engine. -/
inductive Op
  | addItem (buyer pid : String) (qty : Nat)
  | updateItem (buyer pid : String) (qty : Nat)
  | removeItem (buyer pid : String)
  | importProduct (pid : String) (p : Product)
  | createCheckout (buyer sid : String) (now : Nat)
  | confirmPayment (sid utr key sig : String) (now : Nat)

/-- One engine step: dispatch an operation on the current state. -/
def step (cfg : MerchantConfig) : Op → EngineState → EngineState × OpOutcome
  | .addItem buyer pid qty, s => addItem buyer pid qty s
  | .updateItem buyer pid qty, s => updateItem buyer pid qty s
  | .removeItem buyer pid, s => removeItem buyer pid s
  | .importProduct pid p, s => importProduct pid p s
  | .createCheckout buyer sid now, s => createCheckoutSession cfg buyer sid now s
  | .confirmPayment sid utr key sig now, s => confirmPayment cfg sid utr key sig now s

/-- Run a sequence of operations from a state, keeping only the state. -/
def run (cfg : MerchantConfig) (ops : List Op) (s : EngineState) : EngineState :=
  ops.foldl (fun s op => (step cfg op s).1) s

/-- Initial engine state: an imported catalogue, no carts, no sessions,
no ledger entries, no orders. -/
def initState (products : List (String × Product)) : EngineState :=
  { products := products, carts := [], sessions := [], idemLedger := [], orders := [] }

end Commerce

namespace Sarvam

/-- The JavaScript whitespace class (the regexp class for backslash-s
and the set trimmed by String.prototype.trim). -/
def jsWhitespace (c : Char) : Bool :=
  c == ' ' || c == '\t' || c == '\n' || c == '\r' ||
  c.toNat == 0x0b || c.toNat == 0x0c || c.toNat == 0xa0 || c.toNat == 0x1680 ||
  (0x2000 ≤ c.toNat && c.toNat ≤ 0x200a) ||
  c.toNat == 0x2028 || c.toNat == 0x2029 || c.toNat == 0x202f ||
  c.toNat == 0x205f || c.toNat == 0x3000 || c.toNat == 0xfeff

/-- JavaScript String.prototype.trimStart on a character list. -/
def jsTrimStart (l : List Char) : List Char :=
  l.dropWhile jsWhitespace

/-- JavaScript String.prototype.trimEnd on a character list. -/
def jsTrimEnd (l : List Char) : List Char :=
  (l.reverse.dropWhile jsWhitespace).reverse

/-- JavaScript String.prototype.trim on a character list. -/
def jsTrim (l : List Char) : List Char :=
  jsTrimEnd (jsTrimStart l)

/-- Whether the first list is an initial segment of the second. -/
def listStartsWith : List Char → List Char → Bool
  | [], _ => true
  | _ :: _, [] => false
  | p :: ps, c :: cs => p == c && listStartsWith ps cs

/-- JavaScript String.prototype.lastIndexOf needle fromIndex: the
largest index at most fromIndex where needle occurs in text, if any. -/
def lastMatchIdx (needle text : List Char) : Nat → Option Nat
  | 0 => if listStartsWith needle text then some 0 else none
  | p + 1 =>
    if listStartsWith needle (text.drop (p + 1)) then some (p + 1)
    else lastMatchIdx needle text p

/-- Index of the first occurrence of needle in text, if any. -/
def firstMatchAux (needle : List Char) : List Char → Option Nat
  | [] => none
  | c :: rest =>
    if listStartsWith needle (c :: rest) then some 0
    else (firstMatchAux needle rest).map (· + 1)

/-- JavaScript String.prototype.indexOf needle fromIndex: the smallest
index at least fromIndex where needle occurs in text, if any. -/
def firstMatchIdx (needle text : List Char) (pos : Nat) : Option Nat :=
  (firstMatchAux needle (text.drop pos)).map (pos + ·)

/-- TRANSLATE_CHAR_LIMIT of translate.js. -/
def TRANSLATE_CHAR_LIMIT : Nat := 2000

/-- The while loop of chunkText (translate.js lines 12-30): while the
remaining text exceeds maxLength, split at the last space at or before
maxLength (or exactly at maxLength when there is none), push the
trimmed head, and continue with the trimmed-at-start tail; finally
push the trimmed remainder when it is non-empty.  The fuel argument is
instantiated with the text length, which bounds the number of
iterations. -/
def chunkTextLoop : Nat → List Char → Nat → List (List Char)
  | 0, remaining, _ =>
    if jsTrim remaining = [] then [] else [jsTrim remaining]
  | fuel + 1, remaining, maxLength =>
    if maxLength < remaining.length then
      let splitIndex :=
        match lastMatchIdx [' '] remaining maxLength with
        | some i => i
        | none => maxLength
      jsTrim (remaining.take splitIndex) ::
        chunkTextLoop fuel (jsTrimStart (remaining.drop splitIndex)) maxLength
    else
      if jsTrim remaining = [] then [] else [jsTrim remaining]

/-- chunkText of translate.js: split text into chunks respecting word
boundaries, each at most maxLength characters. -/
def chunkText (text : List Char) (maxLength : Nat) : List (List Char) :=
  chunkTextLoop text.length text maxLength

/-- chunkText lifted to Lean strings, at the default character limit. -/
def chunkTextStr (text : String) : List String :=
  (chunkText text.data TRANSLATE_CHAR_LIMIT).map (fun l => String.mk l)

/-- translateToEnglish of translate.js: the identity (with no API
call) when the source language is already en-IN; otherwise each chunk
is sent to the translate API (modelled by the api oracle) and the
translated chunks are joined with single spaces.  The second component
records the (text, source, target) calls issued to the API. -/
def translateToEnglish (api : String → String → String → String)
    (text sourceLanguageCode : String) : String × List (String × String × String) :=
  if sourceLanguageCode = "en-IN" then (text, [])
  else
    let chunks := chunkTextStr text
    (String.intercalate " " (chunks.map (fun c => api c sourceLanguageCode "en-IN")),
      chunks.map (fun c => (c, sourceLanguageCode, "en-IN")))

/-- translateFromEnglish of translate.js: the identity (with no API
call) when the target language is already en-IN; otherwise chunks are
translated from en-IN and joined with single spaces. -/
def translateFromEnglish (api : String → String → String → String)
    (text targetLanguageCode : String) : String × List (String × String × String) :=
  if targetLanguageCode = "en-IN" then (text, [])
  else
    let chunks := chunkTextStr text
    (String.intercalate " " (chunks.map (fun c => api c "en-IN" targetLanguageCode)),
      chunks.map (fun c => (c, "en-IN", targetLanguageCode)))

end Sarvam

namespace Sarvam

/-- The JavaScript line terminators: the characters excluded by the
dot in a regexp without the s flag, and the positions after which a
multiline caret matches. -/
def isLineTerminator (c : Char) : Bool :=
  c == '\n' || c == '\r' || c.toNat == 0x2028 || c.toNat == 0x2029

/-- Lazy search for the closing delimiter of a non-greedy group: the
earliest occurrence of delim, with every character before it accepted
by the dot (no line terminator).  Returns the group content and the
text after the closing delimiter. -/
def lazyClose (delim : List Char) (acc : List Char) : List Char → Option (List Char × List Char)
  | [] => none
  | c :: rest =>
    if listStartsWith delim (c :: rest) then some (acc.reverse, (c :: rest).drop delim.length)
    else if isLineTerminator c then none
    else lazyClose delim (c :: acc) rest

/-- Global replace of the pattern delim(.*?)delim by the group content,
as in the markdown-stripping replaces of cleanTextForTts: at each
position, a match (opening delimiter, lazily closed on the same line)
is replaced by its content and scanning continues after it; otherwise
scanning advances one character.  Fuel is instantiated with the text
length, which bounds the number of steps. -/
def stripDelimPairs (delim : List Char) : Nat → List Char → List Char
  | 0, cs => cs
  | fuel + 1, cs =>
    match cs with
    | [] => []
    | c :: rest =>
      if listStartsWith delim (c :: rest) then
        match lazyClose delim [] ((c :: rest).drop delim.length) with
        | some (inner, after) => inner ++ stripDelimPairs delim fuel after
        | none => c :: stripDelimPairs delim fuel rest
      else c :: stripDelimPairs delim fuel rest

/-- Global multiline replace of leading hash headers, the pattern
being one or more hashes at a line start followed by greedy whitespace
(which may span newlines).  The boolean tracks whether the current
position is at a line start (start of text or just after a line
terminator). -/
def stripHeaders : Nat → Bool → List Char → List Char
  | 0, _, cs => cs
  | fuel + 1, atStart, cs =>
    match cs with
    | [] => []
    | c :: rest =>
      if atStart && c == '#' then
        let afterHashes := (c :: rest).dropWhile (fun ch => ch == '#')
        let ws := afterHashes.takeWhile jsWhitespace
        let newAtStart :=
          match ws.getLast? with
          | some w => isLineTerminator w
          | none => false
        stripHeaders fuel newAtStart (afterHashes.dropWhile jsWhitespace)
      else c :: stripHeaders fuel (isLineTerminator c) rest

/-- The emoji code-point ranges removed by cleanTextForTts. -/
def isEmojiChar (c : Char) : Bool :=
  let n := c.toNat
  (0x1F600 ≤ n && n ≤ 0x1F64F) || (0x1F300 ≤ n && n ≤ 0x1F5FF) ||
  (0x1F680 ≤ n && n ≤ 0x1F6FF) || (0x1F1E0 ≤ n && n ≤ 0x1F1FF) ||
  (0x2600 ≤ n && n ≤ 0x26FF) || (0x2700 ≤ n && n ≤ 0x27BF) ||
  n == 0xFE0F || (0x1F900 ≤ n && n ≤ 0x1F9FF)

/-- Global replace of every whitespace run by a single space. -/
def collapseWs : Nat → List Char → List Char
  | 0, cs => cs
  | fuel + 1, cs =>
    match cs with
    | [] => []
    | c :: rest =>
      if jsWhitespace c then ' ' :: collapseWs fuel (rest.dropWhile jsWhitespace)
      else c :: collapseWs fuel rest

/-- The backtick character. -/
def isBacktick (c : Char) : Bool :=
  c.toNat == 0x60

/-- Global removal of triple-backtick code fence markers. -/
def removeCodeFences : Nat → List Char → List Char
  | 0, cs => cs
  | fuel + 1, cs =>
    match cs with
    | [] => []
    | c :: rest =>
      match rest with
      | c2 :: c3 :: rest' =>
        if isBacktick c && isBacktick c2 && isBacktick c3 then removeCodeFences fuel rest'
        else c :: removeCodeFences fuel rest
      | _ => c :: removeCodeFences fuel rest

/-- cleanTextForTts of the TTS module: strips bold/italic asterisk
markers, leading hash headers, emojis, collapses whitespace runs to
single spaces, trims, and removes code fence markers; the empty input
is returned unchanged. -/
def cleanTextForTts (textInput : List Char) : List Char :=
  if textInput = [] then []
  else
    let p1 := stripDelimPairs ['*', '*', '*'] textInput.length textInput
    let p2 := stripDelimPairs ['*', '*'] p1.length p1
    let p3 := stripDelimPairs ['*'] p2.length p2
    let p4 := stripHeaders p3.length true p3
    let p5 := p4.filter (fun c => !(isEmojiChar c))
    let p6 := jsTrim (collapseWs p5.length p5)
    removeCodeFences p6.length p6

/-- TTS_CHARACTER_LIMIT of the TTS module. -/
def TTS_CHARACTER_LIMIT : Nat := 2500

/-- MIN_TEXT_LENGTH_FOR_FORCED_TWO_WAY_SPLIT of the TTS module. -/
def MIN_TEXT_LENGTH_FOR_FORCED_TWO_WAY_SPLIT : Nat := 20

/-- The best sentence-boundary split point before splitAt, as computed
by chunkTextBoundaryAware: the maximum, over the four sentence
delimiters, of (last occurrence at or after currentPos and at most
splitAt - 1) plus the delimiter length. -/
def ctbaBestSentence (text : List Char) (currentPos splitAt : Nat) : Option Nat :=
  [['.', ' '], ['!', ' '], ['?', ' '], ['\n']].foldl
    (fun best delim =>
      match lastMatchIdx delim text (splitAt - 1) with
      | some i =>
        if currentPos ≤ i then
          let cand := i + delim.length
          match best with
          | some b => if b < cand then some cand else some b
          | none => some cand
        else best
      | none => best)
    none

/-- The while loop of chunkTextBoundaryAware: emit the remainder when
it fits, otherwise split at the best sentence boundary, else at the
last word boundary, else exactly at the limit.  Fuel is instantiated
with the text length plus one. -/
def ctbaLoop (text : List Char) (maxLength : Nat) : Nat → Nat → List (List Char)
  | 0, _ => []
  | fuel + 1, currentPos =>
    if currentPos < text.length then
      if text.length - currentPos ≤ maxLength then [text.drop currentPos]
      else
        let splitAt := currentPos + maxLength
        let spaceFallback :=
          match lastMatchIdx [' '] text (splitAt - 1) with
          | some i => if currentPos < i then i + 1 else splitAt
          | none => splitAt
        let bestSplitPoint :=
          match ctbaBestSentence text currentPos splitAt with
          | some fss => if currentPos < fss then fss else spaceFallback
          | none => spaceFallback
        ((text.drop currentPos).take (bestSplitPoint - currentPos)) ::
          ctbaLoop text maxLength fuel bestSplitPoint
    else []

/-- chunkTextBoundaryAware of the TTS module: boundary-aware chunks,
trimmed, with empty chunks dropped. -/
def chunkTextBoundaryAware (text : List Char) (maxLength : Nat) : List (List Char) :=
  ((ctbaLoop text maxLength (text.length + 1) 0).map jsTrim).filter (fun c => !c.isEmpty)

/-- The forced two-way split of textToSpeech for medium-length text:
split at the space closest to the midpoint (ties broken backward),
else at the midpoint; empty halves are dropped, and the stripped text
itself is kept when both halves vanish. -/
def forcedTwoWaySplit (stripped : List Char) : List (List Char) :=
  let midPoint := stripped.length / 2
  let actualSplit :=
    match lastMatchIdx [' '] stripped midPoint, firstMatchIdx [' '] stripped midPoint with
    | some b, some f => if midPoint - b ≤ f - midPoint then b + 1 else f + 1
    | some b, none => b + 1
    | none, some f => f + 1
    | none, none => midPoint
  let chunk1 := jsTrim (stripped.take actualSplit)
  let chunk2 := jsTrim (stripped.drop actualSplit)
  let textChunks := [chunk1, chunk2].filter (fun c => !c.isEmpty)
  if textChunks = [] then [stripped] else textChunks

/-- Outcome of a text-to-speech request: a base64 WAV payload or a
raised error message. -/
inductive TtsResult
  | ok (audioBase64 : String)
  | err (msg : String)

/-- The fixed silent-audio placeholder returned for empty cleaned
text. -/
def silentAudioBase64 : String :=
  "UklGRkoAAABXQVZFZm10IBAAAAABAAEARKwAAIhYAQACABAAZGF0YQYAAAAAAQ=="

/-- The synthesis loop of textToSpeech: empty chunks are skipped, each
remaining chunk is sent to the TTS API (modelled by the tts oracle),
and the first failure aborts the whole call. -/
def runTtsLoop (tts : List Char → TtsResult) : List (List Char) → Except String (List String)
  | [] => .ok []
  | c :: rest =>
    if c.isEmpty then runTtsLoop tts rest
    else
      match tts c with
      | .err m => .error m
      | .ok audioChunk =>
        match runTtsLoop tts rest with
        | .error m => .error m
        | .ok parts => .ok (audioChunk :: parts)

/-- concatenateWavFromBase64List of the TTS module: null when there
is no part, the part itself when there is exactly one (no
concatenation needed), otherwise the byte-level WAV concatenation of
the parts, modelled by the concatWav oracle (which may fail). -/
def concatenateWavFromBase64List (concatWav : List String → Option String) :
    List String → Option String
  | [] => none
  | [single] => some single
  | parts => concatWav parts

/-- textToSpeech of the TTS module.  The tts oracle models the
external Sarvam TTS API call for one chunk and concatWav models the
byte-level WAV concatenation of several audio parts.  The second
component of the result records the non-empty chunks submitted to the
API; on empty or whitespace-only cleaned text the fixed silent-audio
placeholder is returned with no API traffic. -/
def textToSpeech (tts : List Char → TtsResult) (concatWav : List String → Option String)
    (text : List Char) : TtsResult × List (List Char) :=
  let cleanedText := cleanTextForTts text
  if cleanedText.isEmpty || (jsTrim cleanedText).isEmpty then
    (.ok silentAudioBase64, [])
  else
    let textChunks :=
      if TTS_CHARACTER_LIMIT < cleanedText.length then
        chunkTextBoundaryAware cleanedText TTS_CHARACTER_LIMIT
      else if cleanedText.length < MIN_TEXT_LENGTH_FOR_FORCED_TWO_WAY_SPLIT then
        [jsTrim cleanedText]
      else
        forcedTwoWaySplit (jsTrim cleanedText)
    if textChunks = [] then (.err "Text resulted in no processable chunks unexpectedly.", [])
    else
      let sent := textChunks.filter (fun c => !c.isEmpty)
      match runTtsLoop tts textChunks with
      | .error m => (.err m, sent)
      | .ok parts =>
        if parts = [] then (.err "No audio parts were generated from text chunks.", sent)
        else
          match concatenateWavFromBase64List concatWav parts with
          | none => (.err "Audio chunk concatenation resulted in no data.", sent)
          | some finalAudio => (.ok finalAudio, sent)

end Sarvam

namespace Commerce

/-- An operation only creates a checkout session under an id that is
not already in use (session ids are generated unguessable, hence
fresh). -/
def opCreatesFreshId (op : Op) (s : EngineState) : Prop :=
  match op with
  | .createCheckout _ sid _ => lookupA sid s.sessions = none
  | _ => True

/-- Every stored checkout session's total equals the sum of its frozen
line-item subtotals. -/
def sessionTotalsOk (s : EngineState) : Prop :=
  ∀ sid sess, lookupA sid s.sessions = some sess →
    sess.totalMinorUnits = sumSubtotals sess.lineItems

/-- A concrete signature scheme for concrete evaluations. -/
def demoSign (secret payload : String) : String :=
  secret ++ ":" ++ payload

/-- A concrete merchant configuration for concrete evaluations. -/
def demoConfig : MerchantConfig :=
  { vpa := "merchant@upi", name := "Artisan India", secret := "s3cret", sign := demoSign }

/-- A concrete catalogue product for concrete evaluations. -/
def demoProduct : Product :=
  { title := "Pot", price := 50000, inventoryQuantity := 10, category := none }

/-- A concrete initial state: one product, buyer b1 holds two units of
it in the cart, no sessions, no ledger entries, no orders. -/
def demoState : EngineState :=
  { products := [("p1", demoProduct)]
    carts := [(("b1", "p1"), 2)]
    sessions := []
    idemLedger := []
    orders := [] }

/-- A concrete checkout session snapshot over the demo cart. -/
def demoSession : CheckoutSession :=
  { id := "cs1"
    buyerId := "b1"
    lineItems := [{ productId := "p1", quantity := 2, unitPrice := 50000 }]
    totalMinorUnits := 100000
    paymentLink := upiLink "merchant@upi" "Artisan India" 100000 "cs1"
    status := SessionStatus.pending
    createdAt := 0
    expiresAt := 900 }

/-- A concrete state holding the demo session still pending. -/
def demoPendingState : EngineState :=
  { products := [("p1", demoProduct)]
    carts := [(("b1", "p1"), 2)]
    sessions := [("cs1", demoSession)]
    idemLedger := []
    orders := [] }

/-- A concrete state in which the demo session has been paid and the
idempotency ledger remembers the computed result for key k1. -/
def demoPaidState : EngineState :=
  { products := [("p1", { demoProduct with inventoryQuantity := 8 })]
    carts := []
    sessions := [("cs1", { demoSession with status := SessionStatus.paid })]
    idemLedger := [(("cs1", "k1"), { orderId := "order-cs1", status := SessionStatus.paid })]
    orders := [("cs1",
      { id := "order-cs1", checkoutSessionId := "cs1", status := OrderStatus.completed,
        utr := "UTR123", completedAt := 10 })] }

end Commerce

namespace Commerce

theorem lookupA_insertA {α β : Type} [DecidableEq α] (k k' : α) (v : β) (l : List (α × β)) :
    lookupA k (insertA k' v l) = if k' = k then some v else lookupA k l := by
  induction l with
  | nil => simp [insertA, lookupA]
  | cons hd tl ih =>
    obtain ⟨a, b⟩ := hd
    simp only [insertA]
    by_cases h1 : a = k'
    · subst h1
      simp only [if_pos rfl]
      by_cases h2 : a = k <;> simp [lookupA, h2]
    · simp only [if_neg h1]
      by_cases h2 : a = k
      · subst h2
        simp [lookupA, Ne.symm h1]
      · simp [lookupA, h2, ih]

theorem lookupA_removeA {α β : Type} [DecidableEq α] (k k' : α) (l : List (α × β)) :
    lookupA k (removeA k' l) = if k' = k then none else lookupA k l := by
  induction l with
  | nil => simp [removeA, lookupA]
  | cons hd tl ih =>
    obtain ⟨a, b⟩ := hd
    simp only [removeA]
    by_cases h1 : a = k'
    · subst h1
      simp only [if_pos rfl]
      by_cases h2 : a = k
      · subst h2
        simp [ih]
      · simp [lookupA, h2, ih]
    · simp only [if_neg h1]
      by_cases h2 : a = k
      · subst h2
        simp [lookupA, Ne.symm h1]
      · simp [lookupA, h2, ih]

theorem countKey_eq_zero {α β : Type} [DecidableEq α] (k : α) (l : List (α × β))
    (h : lookupA k l = none) : countKey k l = 0 := by
  induction l with
  | nil => simp [countKey]
  | cons hd tl ih =>
    obtain ⟨a, b⟩ := hd
    simp only [lookupA] at h
    by_cases h1 : a = k
    · simp [h1] at h
    · simp [h1] at h
      simp [countKey, h1, ih h]

end Commerce

namespace Commerce

/-- C1: a confirmPayment call whose (checkoutSessionId, idempotencyKey)
pair has already been seen returns the previously computed result (same
order id, same status) and re-executes no side effect: the state is
unchanged, so inventory is not decremented a second time and no second
Order is created. -/
theorem confirmPayment_replay_is_effect_free
    (cfg : MerchantConfig) (sid utr key sig : String) (now : Nat) (s : EngineState)
    (sess : CheckoutSession) (prior : StoredResult)
    (hsess : lookupA sid s.sessions = some sess)
    (hseen : lookupA (sid, key) s.idemLedger = some prior) :
    step cfg (.confirmPayment sid utr key sig now) s =
      (s, .ok (.paymentConfirmed prior.orderId prior.status)) := by
  simp [step, confirmPayment, hsess, hseen]

/-- Witness for C1 at the concrete paid demo state: the pair
(cs1, k1) is in the ledger and the replay returns the stored result
with the state untouched. -/
theorem confirmPayment_replay_is_effect_free_witness :
    lookupA "cs1" demoPaidState.sessions = some { demoSession with status := SessionStatus.paid } ∧
    lookupA ("cs1", "k1") demoPaidState.idemLedger =
      some { orderId := "order-cs1", status := SessionStatus.paid } ∧
    step demoConfig (.confirmPayment "cs1" "UTR999" "k1" "any-sig" 100) demoPaidState =
      (demoPaidState, .ok (.paymentConfirmed "order-cs1" SessionStatus.paid)) :=
  ⟨by decide, by decide,
    confirmPayment_replay_is_effect_free demoConfig "cs1" "UTR999" "k1" "any-sig" 100
      demoPaidState { demoSession with status := SessionStatus.paid }
      { orderId := "order-cs1", status := SessionStatus.paid } (by decide) (by decide)⟩

/-- C4: a confirmPayment call on a pending, unexpired session with a
first-seen idempotency key whose signature does not verify against the
frozen payload under the merchant secret fails with InvalidSignature
and mutates no state (the session remains pending, inventory is
unchanged, no Order is created). -/
theorem confirmPayment_invalid_signature_no_mutation
    (cfg : MerchantConfig) (sid utr key sig : String) (now : Nat) (s : EngineState)
    (sess : CheckoutSession)
    (hsess : lookupA sid s.sessions = some sess)
    (hpending : sess.status = .pending)
    (hfresh : lookupA (sid, key) s.idemLedger = none)
    (hnotexp : ¬ sess.expiresAt < now)
    (hsig : sig ≠ cfg.sign cfg.secret (signaturePayload sess)) :
    step cfg (.confirmPayment sid utr key sig now) s = (s, .err .invalidSignature) := by
  simp [step, confirmPayment, hsess, hfresh, hpending, hnotexp, hsig]

/-- Witness for C4 at the concrete pending demo state with a tampered
signature. -/
theorem confirmPayment_invalid_signature_no_mutation_witness :
    lookupA "cs1" demoPendingState.sessions = some demoSession ∧
    "tampered" ≠ demoConfig.sign demoConfig.secret (signaturePayload demoSession) ∧
    step demoConfig (.confirmPayment "cs1" "UTR123" "k1" "tampered" 100) demoPendingState =
      (demoPendingState, .err .invalidSignature) :=
  ⟨by decide, by decide,
    confirmPayment_invalid_signature_no_mutation demoConfig "cs1" "UTR123" "k1" "tampered" 100
      demoPendingState demoSession (by decide) (by decide) (by decide) (by decide) (by decide)⟩

/-- C5: a confirmPayment call on a still-pending session past its
expiresAt (with a first-seen idempotency key) fails with the
SessionExpired error and performs no mutation: the session does not
transition to paid or failed, inventory is unchanged, and no Order is
created. -/
theorem confirmPayment_expired_no_mutation
    (cfg : MerchantConfig) (sid utr key sig : String) (now : Nat) (s : EngineState)
    (sess : CheckoutSession)
    (hsess : lookupA sid s.sessions = some sess)
    (hpending : sess.status = .pending)
    (hfresh : lookupA (sid, key) s.idemLedger = none)
    (hexp : sess.expiresAt < now) :
    step cfg (.confirmPayment sid utr key sig now) s = (s, .err .sessionExpired) := by
  simp [step, confirmPayment, hsess, hfresh, hpending, hexp]

/-- Witness for C5 at the concrete pending demo state at a time past
the 900-second expiry. -/
theorem confirmPayment_expired_no_mutation_witness :
    lookupA "cs1" demoPendingState.sessions = some demoSession ∧
    demoSession.expiresAt < 1000 ∧
    step demoConfig (.confirmPayment "cs1" "UTR123" "k1" "any-sig" 1000) demoPendingState =
      (demoPendingState, .err .sessionExpired) :=
  ⟨by decide, by decide,
    confirmPayment_expired_no_mutation demoConfig "cs1" "UTR123" "k1" "any-sig" 1000
      demoPendingState demoSession (by decide) (by decide) (by decide) (by decide)⟩

/-- C6: createCheckoutSession never mutates or clears the buyer's
cart: whatever the outcome (empty cart, failed revalidation, or a
created session), the cart rows after the call equal the cart rows
before it. -/
theorem createCheckoutSession_preserves_cart
    (cfg : MerchantConfig) (buyer sid : String) (now : Nat) (s : EngineState) :
    ((step cfg (.createCheckout buyer sid now) s).1).carts = s.carts := by
  simp only [step, createCheckoutSession]
  split
  · rfl
  · split
    · rfl
    · rfl

end Commerce

namespace Commerce

theorem addItem_sessions (b p : String) (q : Nat) (s : EngineState) :
    ((addItem b p q s).1).sessions = s.sessions := by
  simp only [addItem]
  split
  · rfl
  · split
    · rfl
    · rfl

theorem updateItem_sessions (b p : String) (q : Nat) (s : EngineState) :
    ((updateItem b p q s).1).sessions = s.sessions := by
  simp only [updateItem]
  split
  · rfl
  · split
    · rfl
    · split
      · rfl
      · rfl

theorem removeItem_sessions (b p : String) (s : EngineState) :
    ((removeItem b p s).1).sessions = s.sessions := rfl

theorem importProduct_sessions (pid : String) (p : Product) (s : EngineState) :
    ((importProduct pid p s).1).sessions = s.sessions := rfl

theorem step_sessions_frame (cfg : MerchantConfig) (op : Op) (s : EngineState)
    (sid : String) (sess : CheckoutSession)
    (hsess : lookupA sid s.sessions = some sess)
    (hfresh : opCreatesFreshId op s) :
    ∃ sess', lookupA sid ((step cfg op s).1).sessions = some sess' ∧
      sess'.lineItems = sess.lineItems ∧ sess'.totalMinorUnits = sess.totalMinorUnits := by
  cases op with
  | addItem b p q =>
    exact ⟨sess, by simp only [step, addItem_sessions]; exact hsess, rfl, rfl⟩
  | updateItem b p q =>
    exact ⟨sess, by simp only [step, updateItem_sessions]; exact hsess, rfl, rfl⟩
  | removeItem b p =>
    exact ⟨sess, by simp only [step, removeItem_sessions]; exact hsess, rfl, rfl⟩
  | importProduct pid p =>
    exact ⟨sess, by simp only [step, importProduct_sessions]; exact hsess, rfl, rfl⟩
  | createCheckout buyer sid' now =>
    simp only [opCreatesFreshId] at hfresh
    have hne : sid' ≠ sid := by
      intro h
      rw [h, hsess] at hfresh
      cases hfresh
    simp only [step, createCheckoutSession]
    split
    · exact ⟨sess, hsess, rfl, rfl⟩
    · split
      · exact ⟨sess, hsess, rfl, rfl⟩
      · refine ⟨sess, ?_, rfl, rfl⟩
        simp [lookupA_insertA, hne, hsess]
  | confirmPayment sid' utr key sig now =>
    simp only [step, confirmPayment]
    split
    · exact ⟨sess, hsess, rfl, rfl⟩
    next sess0 hS =>
      split
      · exact ⟨sess, hsess, rfl, rfl⟩
      · split
        · split
          · exact ⟨sess, hsess, rfl, rfl⟩
          · exact ⟨sess, hsess, rfl, rfl⟩
        · split
          · exact ⟨sess, hsess, rfl, rfl⟩
          · split
            · exact ⟨sess, hsess, rfl, rfl⟩
            · split
              · exact ⟨sess, hsess, rfl, rfl⟩
              · by_cases h : sid' = sid
                · subst h
                  have hss : sess0 = sess := by
                    rw [hS] at hsess
                    exact Option.some.inj hsess
                  subst hss
                  refine ⟨{ sess0 with status := SessionStatus.paid }, ?_, rfl, rfl⟩
                  simp [lookupA_insertA]
                · refine ⟨sess, ?_, rfl, rfl⟩
                  simp [lookupA_insertA, h, hsess]

theorem step_totalsOk (cfg : MerchantConfig) (op : Op) (s : EngineState)
    (h : sessionTotalsOk s) : sessionTotalsOk ((step cfg op s).1) := by
  cases op with
  | addItem b p q =>
    intro sid sess hs
    rw [step, addItem_sessions] at hs
    exact h _ _ hs
  | updateItem b p q =>
    intro sid sess hs
    rw [step, updateItem_sessions] at hs
    exact h _ _ hs
  | removeItem b p =>
    intro sid sess hs
    rw [step, removeItem_sessions] at hs
    exact h _ _ hs
  | importProduct pid p =>
    intro sid sess hs
    rw [step, importProduct_sessions] at hs
    exact h _ _ hs
  | createCheckout buyer sid' now =>
    intro sid sess hs
    simp only [step, createCheckoutSession] at hs
    split at hs
    · exact h _ _ hs
    · split at hs
      · exact h _ _ hs
      · simp only [lookupA_insertA] at hs
        by_cases hd : sid' = sid
        · rw [if_pos hd] at hs
          cases Option.some.inj hs
          rfl
        · rw [if_neg hd] at hs
          exact h _ _ hs
  | confirmPayment sid' utr key sig now =>
    intro sid sess hs
    simp only [step, confirmPayment] at hs
    split at hs
    · exact h _ _ hs
    next sess0 hS =>
      split at hs
      · exact h _ _ hs
      · split at hs
        · split at hs
          · exact h _ _ hs
          · exact h _ _ hs
        · split at hs
          · exact h _ _ hs
          · split at hs
            · exact h _ _ hs
            · split at hs
              · exact h _ _ hs
              · simp only [lookupA_insertA] at hs
                by_cases hd : sid' = sid
                · rw [if_pos hd] at hs
                  cases Option.some.inj hs
                  exact h sid' sess0 hS
                · rw [if_neg hd] at hs
                  exact h _ _ hs

theorem run_totalsOk (cfg : MerchantConfig) (ops : List Op) (s : EngineState)
    (h : sessionTotalsOk s) : sessionTotalsOk (run cfg ops s) := by
  induction ops generalizing s with
  | nil => exact h
  | cons op rest ih => exact ih _ (step_totalsOk cfg op s h)

theorem initState_totalsOk (products : List (String × Product)) :
    sessionTotalsOk (initState products) := by
  intro sid sess hs
  simp [initState, lookupA] at hs

end Commerce

namespace Commerce

/-- C2: in every state reachable from an imported catalogue, every
checkout session's totalMinorUnits equals the sum of its frozen
line-item subtotals (quantity times the unit price snapshotted at
creation); moreover no single operation — including a catalogue import
that changes the underlying product price — changes a stored
session's line items or total (later operations may at most change its
status). -/
theorem checkout_totals_and_line_items_frozen (cfg : MerchantConfig) :
    (∀ (ops : List Op) (products : List (String × Product)) (sid : String)
        (sess : CheckoutSession),
      lookupA sid (run cfg ops (initState products)).sessions = some sess →
      sess.totalMinorUnits = sumSubtotals sess.lineItems)
    ∧ (∀ (op : Op) (s : EngineState) (sid : String) (sess : CheckoutSession),
      lookupA sid s.sessions = some sess → opCreatesFreshId op s →
      ∃ sess', lookupA sid ((step cfg op s).1).sessions = some sess' ∧
        sess'.lineItems = sess.lineItems ∧ sess'.totalMinorUnits = sess.totalMinorUnits) :=
  ⟨fun ops products sid sess hs =>
      run_totalsOk cfg ops _ (initState_totalsOk products) sid sess hs,
    fun op s sid sess hsess hfresh => step_sessions_frame cfg op s sid sess hsess hfresh⟩

/-- Witness for C2: a concrete add-to-cart then checkout run reaches a
state whose session satisfies the total invariant, and a concrete
catalogue price change leaves that session's line items and total
untouched. -/
theorem checkout_totals_and_line_items_frozen_witness :
    (lookupA "cs1" (run demoConfig [Op.addItem "b1" "p1" 2, Op.createCheckout "b1" "cs1" 0]
        (initState [("p1", demoProduct)])).sessions = some demoSession ∧
      demoSession.totalMinorUnits = sumSubtotals demoSession.lineItems) ∧
    (lookupA "cs1" demoPendingState.sessions = some demoSession ∧
      ∃ sess', lookupA "cs1" ((step demoConfig
          (Op.importProduct "p1" { demoProduct with price := 75000 })
          demoPendingState).1).sessions = some sess' ∧
        sess'.lineItems = demoSession.lineItems ∧
        sess'.totalMinorUnits = demoSession.totalMinorUnits) :=
  ⟨⟨by decide,
    (checkout_totals_and_line_items_frozen demoConfig).1
      [Op.addItem "b1" "p1" 2, Op.createCheckout "b1" "cs1" 0]
      [("p1", demoProduct)] "cs1" demoSession (by decide)⟩,
   ⟨by decide,
    (checkout_totals_and_line_items_frozen demoConfig).2
      (Op.importProduct "p1" { demoProduct with price := 75000 })
      demoPendingState "cs1" demoSession (by decide) trivial⟩⟩

end Commerce

namespace Commerce

theorem decrementAll_lookup_notmem (items : List LineItem) (ps ps' : List (String × Product))
    (pid : String) (hd : decrementAll items ps = some ps')
    (hmem : pid ∉ items.map (fun li => li.productId)) :
    lookupA pid ps' = lookupA pid ps := by
  induction items generalizing ps with
  | nil =>
    simp only [decrementAll] at hd
    cases hd
    rfl
  | cons li rest ih =>
    simp only [decrementAll] at hd
    split at hd
    · cases hd
    next p hP =>
      split at hd
      · cases hd
      · simp only [List.map_cons, List.mem_cons] at hmem
        push_neg at hmem
        rw [ih _ hd hmem.2, lookupA_insertA, if_neg (fun h => hmem.1 h.symm)]

theorem decrementAll_decrements (items : List LineItem) (ps ps' : List (String × Product))
    (hnd : (items.map (fun li => li.productId)).Nodup)
    (hd : decrementAll items ps = some ps') :
    ∀ li ∈ items, ∀ p, lookupA li.productId ps = some p →
      lookupA li.productId ps' =
        some { p with inventoryQuantity := p.inventoryQuantity - li.quantity } := by
  induction items generalizing ps with
  | nil =>
    intro li h
    cases h
  | cons li0 rest ih =>
    intro li hmem p hp
    simp only [decrementAll] at hd
    split at hd
    · cases hd
    next p0 hP =>
      split at hd
      · cases hd
      next hq =>
        simp only [List.map_cons, List.nodup_cons] at hnd
        rcases List.mem_cons.mp hmem with h | h
        · subst h
          have hpp : p = p0 := by
            rw [hp] at hP
            exact Option.some.inj hP
          subst hpp
          rw [decrementAll_lookup_notmem rest _ ps' li.productId hd hnd.1]
          simp [lookupA_insertA]
        · have hne : li0.productId ≠ li.productId := by
            intro hcontra
            exact hnd.1 (hcontra ▸ List.mem_map.mpr ⟨li, h, rfl⟩)
          refine ih _ hnd.2 hd li h p ?_
          rw [lookupA_insertA, if_neg hne]
          exact hp

theorem clearSnapshot_lookup (buyer : String) (items : List LineItem)
    (carts : List ((String × String) × Nat)) (b pid : String) :
    lookupA (b, pid) (clearSnapshot buyer items carts) =
      if b = buyer ∧ pid ∈ items.map (fun li => li.productId) then none
      else lookupA (b, pid) carts := by
  induction items generalizing carts with
  | nil => simp [clearSnapshot]
  | cons li rest ih =>
    simp only [clearSnapshot]
    rw [ih, lookupA_removeA]
    by_cases h1 : b = buyer
    · subst h1
      by_cases h2 : pid ∈ rest.map (fun l => l.productId)
      · simp [h2]
      · by_cases h3 : pid = li.productId
        · simp [h2, h3]
        · have hpid : li.productId ≠ pid := fun h => h3 h.symm
          simp [h2, h3, hpid]
    · have hb : buyer ≠ b := fun h => h1 h.symm
      simp [h1, hb]

end Commerce


namespace Commerce

/-- C3: for a buyer with a non-empty valid cart, createCheckoutSession
followed by confirmPayment with a valid signature, a first-seen
idempotency key, within the expiry window and with sufficient stock:
the session ends paid, exactly one Order (carrying the given UTR) is
recorded for the session, inventory is decremented for each line item
by its snapshotted quantity, and the buyer's cart loses exactly the
rows of products in the snapshot while every other cart row is left
untouched. -/
theorem create_then_confirm_round_trip
    (cfg : MerchantConfig) (buyer sid utr key sig : String) (t1 t2 : Nat)
    (s s1 s2 : EngineState) (items : List LineItem) (products' : List (String × Product))
    (hne : cartOf buyer s.carts ≠ [])
    (hitems : buildLineItems (cartOf buyer s.carts) s.products = .ok items)
    (hkey : lookupA (sid, key) s.idemLedger = none)
    (hsig : sig = cfg.sign cfg.secret (sid ++ toString (sumSubtotals items) ++ buyer))
    (hexp : t2 ≤ t1 + 15 * 60)
    (hstock : decrementAll items s.products = some products')
    (horder : lookupA sid s.orders = none)
    (hnodup : (items.map (fun li => li.productId)).Nodup)
    (hs1 : s1 = (step cfg (.createCheckout buyer sid t1) s).1)
    (hs2 : s2 = (step cfg (.confirmPayment sid utr key sig t2) s1).1) :
    (step cfg (.createCheckout buyer sid t1) s).2 =
      .ok (.checkoutCreated sid (upiLink cfg.vpa cfg.name (sumSubtotals items) sid)
        (sumSubtotals items) (t1 + 15 * 60)) ∧
    (step cfg (.confirmPayment sid utr key sig t2) s1).2 =
      .ok (.paymentConfirmed ("order-" ++ sid) .paid) ∧
    (lookupA sid s2.sessions).map (fun ss => ss.status) = some .paid ∧
    countKey sid s2.orders = 1 ∧
    (lookupA sid s2.orders).map (fun o => o.utr) = some utr ∧
    s2.products = products' ∧
    (∀ li ∈ items, ∀ p, lookupA li.productId s.products = some p →
      lookupA li.productId s2.products =
        some { p with inventoryQuantity := p.inventoryQuantity - li.quantity }) ∧
    (∀ b pid, lookupA (b, pid) s2.carts =
      if b = buyer ∧ pid ∈ items.map (fun li => li.productId) then none
      else lookupA (b, pid) s1.carts) := by
  have hstep1 : step cfg (.createCheckout buyer sid t1) s =
      ((⟨s.products, s.carts,
          insertA sid
            (⟨sid, buyer, items, sumSubtotals items,
              upiLink cfg.vpa cfg.name (sumSubtotals items) sid,
              .pending, t1, t1 + 15 * 60⟩ : CheckoutSession) s.sessions,
          s.idemLedger, s.orders⟩ : EngineState),
        .ok (.checkoutCreated sid (upiLink cfg.vpa cfg.name (sumSubtotals items) sid)
          (sumSubtotals items) (t1 + 15 * 60))) := by
    simp [step, createCheckoutSession, hne, hitems]
  have hnexp : ¬ (t1 + 15 * 60 < t2) := Nat.not_lt.mpr hexp
  simp only [hstep1] at hs1
  subst hs1
  have hstep2 : step cfg (.confirmPayment sid utr key sig t2)
      (⟨s.products, s.carts,
        insertA sid
          (⟨sid, buyer, items, sumSubtotals items,
            upiLink cfg.vpa cfg.name (sumSubtotals items) sid,
            .pending, t1, t1 + 15 * 60⟩ : CheckoutSession) s.sessions,
        s.idemLedger, s.orders⟩ : EngineState) =
      ((⟨products', clearSnapshot buyer items s.carts,
          insertA sid
            (⟨sid, buyer, items, sumSubtotals items,
              upiLink cfg.vpa cfg.name (sumSubtotals items) sid,
              .paid, t1, t1 + 15 * 60⟩ : CheckoutSession)
            (insertA sid
              (⟨sid, buyer, items, sumSubtotals items,
                upiLink cfg.vpa cfg.name (sumSubtotals items) sid,
                .pending, t1, t1 + 15 * 60⟩ : CheckoutSession) s.sessions),
          insertA (sid, key)
            (⟨"order-" ++ sid, .paid⟩ : StoredResult) s.idemLedger,
          (sid, (⟨"order-" ++ sid, sid, .completed, utr, t2⟩ : Order)) :: s.orders⟩ :
            EngineState),
        .ok (.paymentConfirmed ("order-" ++ sid) .paid)) := by
    simp [step, confirmPayment, lookupA_insertA, hkey, hnexp, signaturePayload, hsig, hstock]
  simp only [hstep2] at hs2
  subst hs2
  refine ⟨?_, ?_, ?_, ?_, ?_, rfl, ?_, ?_⟩
  · rw [hstep1]
  · rw [hstep2]
  · simp [lookupA_insertA]
  · simp [countKey, countKey_eq_zero _ _ horder]
  · simp [lookupA]
  · intro li hmem p hp
    exact decrementAll_decrements items s.products products' hnodup hstock li hmem p hp
  · intro b pid
    show lookupA (b, pid) (clearSnapshot buyer items s.carts) =
      if b = buyer ∧ pid ∈ items.map (fun li => li.productId) then none
      else lookupA (b, pid) s.carts
    rw [clearSnapshot_lookup]

end Commerce

namespace Commerce

/-- Witness for C3: the concrete demo run — buyer b1 with two units of
p1, checkout at time 0, confirmation with the valid signature and key
k1 at time 10 — satisfies every hypothesis and yields the paid state
with one order, decremented inventory and an emptied cart. -/
theorem create_then_confirm_round_trip_witness :
    (cartOf "b1" demoState.carts ≠ [] ∧
      buildLineItems (cartOf "b1" demoState.carts) demoState.products =
        .ok demoSession.lineItems ∧
      lookupA ("cs1", "k1") demoState.idemLedger = none ∧
      "s3cret:cs1100000b1" = demoConfig.sign demoConfig.secret
        ("cs1" ++ toString (sumSubtotals demoSession.lineItems) ++ "b1") ∧
      10 ≤ 0 + 15 * 60 ∧
      decrementAll demoSession.lineItems demoState.products = some demoPaidState.products ∧
      lookupA "cs1" demoState.orders = none ∧
      (demoSession.lineItems.map (fun li => li.productId)).Nodup ∧
      demoPendingState = (step demoConfig (.createCheckout "b1" "cs1" 0) demoState).1 ∧
      demoPaidState = (step demoConfig
        (.confirmPayment "cs1" "UTR123" "k1" "s3cret:cs1100000b1" 10) demoPendingState).1) ∧
    ((step demoConfig (.createCheckout "b1" "cs1" 0) demoState).2 =
      .ok (.checkoutCreated "cs1"
        (upiLink demoConfig.vpa demoConfig.name (sumSubtotals demoSession.lineItems) "cs1")
        (sumSubtotals demoSession.lineItems) (0 + 15 * 60)) ∧
    (step demoConfig
        (.confirmPayment "cs1" "UTR123" "k1" "s3cret:cs1100000b1" 10) demoPendingState).2 =
      .ok (.paymentConfirmed ("order-" ++ "cs1") .paid) ∧
    (lookupA "cs1" demoPaidState.sessions).map (fun ss => ss.status) = some .paid ∧
    countKey "cs1" demoPaidState.orders = 1 ∧
    (lookupA "cs1" demoPaidState.orders).map (fun o => o.utr) = some "UTR123" ∧
    demoPaidState.products = demoPaidState.products ∧
    (∀ li ∈ demoSession.lineItems, ∀ p, lookupA li.productId demoState.products = some p →
      lookupA li.productId demoPaidState.products =
        some { p with inventoryQuantity := p.inventoryQuantity - li.quantity }) ∧
    (∀ b pid, lookupA (b, pid) demoPaidState.carts =
      if b = "b1" ∧ pid ∈ demoSession.lineItems.map (fun li => li.productId) then none
      else lookupA (b, pid) demoPendingState.carts)) :=
  ⟨⟨by decide, rfl, rfl, rfl, by decide, rfl, rfl, by decide, by decide, by decide⟩,
    create_then_confirm_round_trip demoConfig "b1" "cs1" "UTR123" "k1" "s3cret:cs1100000b1" 0 10
      demoState demoPendingState demoPaidState demoSession.lineItems demoPaidState.products
      (by decide) rfl rfl rfl (by decide) rfl rfl (by decide) (by decide) (by decide)⟩

end Commerce

namespace Sarvam

theorem dropWhile_length_le (p : Char → Bool) (l : List Char) :
    (l.dropWhile p).length ≤ l.length := by
  induction l with
  | nil => simp [List.dropWhile]
  | cons a l ih =>
    simp only [List.dropWhile]
    split
    · exact Nat.le_succ_of_le ih
    · exact Nat.le_refl _

theorem jsTrimStart_length_le (l : List Char) : (jsTrimStart l).length ≤ l.length :=
  dropWhile_length_le _ _

theorem jsTrim_length_le (l : List Char) : (jsTrim l).length ≤ l.length := by
  unfold jsTrim jsTrimEnd jsTrimStart
  rw [List.length_reverse]
  refine le_trans (dropWhile_length_le _ _) ?_
  rw [List.length_reverse]
  exact dropWhile_length_le _ _

theorem lastMatchIdx_le (needle text : List Char) (p i : Nat)
    (h : lastMatchIdx needle text p = some i) : i ≤ p := by
  induction p with
  | zero =>
    simp only [lastMatchIdx] at h
    split at h
    · cases h
      exact Nat.le_refl 0
    · cases h
  | succ p ih =>
    simp only [lastMatchIdx] at h
    split at h
    · cases h
      exact Nat.le_refl _
    · exact Nat.le_succ_of_le (ih h)

theorem lastMatchIdx_starts (needle text : List Char) (p i : Nat)
    (h : lastMatchIdx needle text p = some i) :
    listStartsWith needle (text.drop i) = true := by
  induction p with
  | zero =>
    simp only [lastMatchIdx] at h
    split at h
    next hs =>
      cases h
      simpa using hs
    · cases h
  | succ p ih =>
    simp only [lastMatchIdx] at h
    split at h
    next hs =>
      cases h
      exact hs
    · exact ih h

theorem chunkTextLoop_bound (fuel : Nat) :
    ∀ (remaining : List Char) (maxLength : Nat), 1 ≤ maxLength →
      remaining.length ≤ fuel + maxLength →
      ∀ c ∈ chunkTextLoop fuel remaining maxLength, c.length ≤ maxLength := by
  induction fuel with
  | zero =>
    intro remaining maxLength h1 hlen c hc
    simp only [chunkTextLoop] at hc
    split at hc
    · cases hc
    · rcases List.mem_singleton.mp hc with rfl
      exact le_trans (jsTrim_length_le _) (by omega)
  | succ fuel ih =>
    intro remaining maxLength h1 hlen c hc
    simp only [chunkTextLoop] at hc
    by_cases hgt : maxLength < remaining.length
    · rw [if_pos hgt] at hc
      cases hsi : lastMatchIdx [' '] remaining maxLength with
      | none =>
        rw [hsi] at hc
        simp only at hc
        rcases List.mem_cons.mp hc with rfl | hctail
        · refine le_trans (jsTrim_length_le _) ?_
          have := List.length_take_le maxLength remaining
          omega
        · refine ih _ maxLength h1 ?_ c hctail
          have h2 := jsTrimStart_length_le (remaining.drop maxLength)
          have h3 : (remaining.drop maxLength).length = remaining.length - maxLength :=
            List.length_drop _ _
          omega
      | some i =>
        rw [hsi] at hc
        simp only at hc
        have hile : i ≤ maxLength := lastMatchIdx_le _ _ _ _ hsi
        rcases List.mem_cons.mp hc with rfl | hctail
        · refine le_trans (jsTrim_length_le _) ?_
          have := List.length_take_le i remaining
          omega
        · refine ih _ maxLength h1 ?_ c hctail
          have hst := lastMatchIdx_starts _ _ _ _ hsi
          cases hdrop : remaining.drop i with
          | nil =>
            rw [hdrop] at hst
            simp [listStartsWith] at hst
          | cons c0 rest =>
            rw [hdrop] at hst
            simp only [listStartsWith, Bool.and_eq_true, beq_iff_eq] at hst
            have hc0 : c0 = ' ' := hst.1.symm
            subst hc0
            have h4 : jsTrimStart (' ' :: rest) = jsTrimStart rest := by
              simp only [jsTrimStart, List.dropWhile]
              rfl
            rw [h4]
            have h5 := jsTrimStart_length_le rest
            have h6 : (remaining.drop i).length = remaining.length - i := List.length_drop _ _
            rw [hdrop] at h6
            simp only [List.length_cons] at h6
            omega
    · rw [if_neg hgt] at hc
      split at hc
      · cases hc
      · rcases List.mem_singleton.mp hc with rfl
        exact le_trans (jsTrim_length_le _) (by omega)

end Sarvam

namespace Commerce

/-- C7: every successful createCheckoutSession returns a UPI deep link
of the form upi://pay?pa=VPA&pn=NAME&am=AMOUNT&tr=SESSIONID&cu=INR,
where tr is the session id and am is the session total in rupees with
two decimal places; in particular a total of 100000 paise renders as
am=1000.00. -/
theorem upi_deep_link_format
    (cfg : MerchantConfig) (buyer sid : String) (t : Nat) (s : EngineState)
    (items : List LineItem)
    (hne : cartOf buyer s.carts ≠ [])
    (hitems : buildLineItems (cartOf buyer s.carts) s.products = .ok items) :
    (step cfg (.createCheckout buyer sid t) s).2 =
      .ok (.checkoutCreated sid
        ("upi://pay?pa=" ++ cfg.vpa ++ "&pn=" ++ cfg.name ++ "&am=" ++
          formatAmount (sumSubtotals items) ++ "&tr=" ++ sid ++ "&cu=INR")
        (sumSubtotals items) (t + 15 * 60)) ∧
    formatAmount 100000 = "1000.00" := by
  constructor
  · simp [step, createCheckoutSession, hne, hitems, upiLink]
  · rfl

/-- Witness for C7: the demo checkout of two 50000-paise units yields
the literal link with am=1000.00 and tr=cs1. -/
theorem upi_deep_link_format_witness :
    (cartOf "b1" demoState.carts ≠ [] ∧
      buildLineItems (cartOf "b1" demoState.carts) demoState.products =
        .ok demoSession.lineItems) ∧
    ((step demoConfig (.createCheckout "b1" "cs1" 0) demoState).2 =
      .ok (.checkoutCreated "cs1"
        ("upi://pay?pa=" ++ demoConfig.vpa ++ "&pn=" ++ demoConfig.name ++ "&am=" ++
          formatAmount (sumSubtotals demoSession.lineItems) ++ "&tr=" ++ "cs1" ++ "&cu=INR")
        (sumSubtotals demoSession.lineItems) (0 + 15 * 60)) ∧
      formatAmount 100000 = "1000.00") :=
  ⟨⟨by decide, rfl⟩,
    upi_deep_link_format demoConfig "b1" "cs1" 0 demoState demoSession.lineItems
      (by decide) rfl⟩

end Commerce

namespace Sarvam

/-- C8: every chunk produced by the translation text splitter
chunkText at the default 2000-character limit has length at most 2000,
for every input text (in particular for space-free text, which is cut
exactly at the limit). -/
theorem chunkText_chunks_within_limit (text c : List Char)
    (hc : c ∈ chunkText text TRANSLATE_CHAR_LIMIT) : c.length ≤ 2000 :=
  chunkTextLoop_bound text.length text TRANSLATE_CHAR_LIMIT (by decide)
    (Nat.le_add_right _ _) c hc

/-- Witness for C8: the single chunk of a short text is within the
limit. -/
theorem chunkText_chunks_within_limit_witness :
    ("hello".data ∈ chunkText "hello".data TRANSLATE_CHAR_LIMIT) ∧
    ("hello".data).length ≤ 2000 :=
  ⟨by decide, chunkText_chunks_within_limit "hello".data "hello".data (by decide)⟩

/-- C9: translateToEnglish and translateFromEnglish are the identity
on English: with language code en-IN they return the text unchanged
and issue no call to the external translate API, whatever the API
oracle would answer. -/
theorem translate_identity_on_english
    (api : String → String → String → String) (text : String) :
    translateToEnglish api text "en-IN" = (text, []) ∧
    translateFromEnglish api text "en-IN" = (text, []) :=
  ⟨by simp [translateToEnglish], by simp [translateFromEnglish]⟩

/-- C10: whenever cleanTextForTts reduces the input to an empty or
whitespace-only text, textToSpeech returns the fixed silent-audio
base64 placeholder and submits no chunk to the external TTS API,
whatever the TTS oracle and WAV concatenation would do. -/
theorem textToSpeech_silent_on_empty_cleaned
    (tts : List Char → TtsResult) (concatWav : List String → Option String)
    (text : List Char) (h : jsTrim (cleanTextForTts text) = []) :
    textToSpeech tts concatWav text = (.ok silentAudioBase64, []) := by
  simp [textToSpeech, h]

/-- Witness for C10: the input consisting of two asterisks cleans to
the empty text and synthesizes to the silent placeholder without any
API call. -/
theorem textToSpeech_silent_on_empty_cleaned_witness :
    jsTrim (cleanTextForTts "**".data) = [] ∧
    textToSpeech (fun _ => .ok "audio-part") (fun _ => some "joined-audio") "**".data =
      (.ok silentAudioBase64, []) :=
  ⟨by decide,
    textToSpeech_silent_on_empty_cleaned (fun _ => .ok "audio-part")
      (fun _ => some "joined-audio") "**".data (by decide)⟩

end Sarvam
